import Mathlib

/-!
Verification of the cap-worker protocol engine (`src/cap/index.ts`) against its
natural-language specification.

The engine is embedded shallowly:
* JavaScript 32-bit integer arithmetic is modelled on `Nat` with explicit
  reduction modulo `2 ^ 32` (`u32`); every JS bitwise operator first coerces its
  operand to a 32-bit pattern, and two values that agree modulo `2 ^ 32` have
  the same pattern, so tracking the unsigned representative is faithful.
* `async` functions whose awaited collaborators (the injected storage hooks)
  can fail are modelled as functions into `Except String _`: a rejected promise
  is an `Except.error` carrying the rejection message, and the source's lack of
  `try`/`catch` is rendered by explicit error propagation at each `await`.
* `Date.now()` and the bytes drawn from `crypto.getRandomValues` are passed in
  as explicit parameters (`now`, `List (Fin 256)`).
* `crypto.subtle.digest("SHA-256", _)` is an external platform primitive, not
  code of this repository; the operations are therefore parameterised by an
  arbitrary digest function `hash : String → String`.  No claim below depends
  on properties of the digest itself, only on how the engine uses it.
-/

namespace Cap

/-! ### JavaScript 32-bit arithmetic -/

/-- Reduce to an unsigned 32-bit representative (the effect of `>>> 0`, and the
common bit pattern of all JS int32/uint32 coercions). -/
def u32 (n : Nat) : Nat := n % 4294967296

/-- JS `a << k` on a 32-bit pattern, kept as the unsigned representative. -/
def shl (n k : Nat) : Nat := u32 (n * 2 ^ k)

/-- JS `a >>> k` (unsigned right shift) for `n < 2 ^ 32`. -/
def shr (n k : Nat) : Nat := n / 2 ^ k

/-! ### The deterministic sequence generator `prng` (src/cap/index.ts:55-82) -/

/-- One step of the hash loop in `fnv1a` (src/cap/index.ts:58-62):
`hash ^= str.charCodeAt(i); hash += (hash<<1)+(hash<<4)+(hash<<7)+(hash<<8)+(hash<<24)`.
Each shift is truncated to 32 bits exactly as the JS engine truncates it. -/
def fnv1aStep (h c : Nat) : Nat :=
  let h1 := h ^^^ c
  u32 (h1 + shl h1 1 + shl h1 4 + shl h1 7 + shl h1 8 + shl h1 24)

/-- The sequence of `charCodeAt` values of a string.  All seeds the engine ever
hashes are ASCII (hex token ++ decimal index ++ "d"), for which UTF-16 code
units, code points and UTF-8 bytes all coincide with `Char.toNat`. -/
def charCodes (s : String) : List Nat := s.data.map Char.toNat

/-- `fnv1a` (src/cap/index.ts:56-64): fold the step over the seed's code units,
starting from the FNV offset basis 2166136261. -/
def fnv1a (s : String) : Nat := (charCodes s).foldl fnv1aStep 2166136261

/-- `next()` (src/cap/index.ts:69-74): the 3-shift xorshift32 step
(`s ^= s << 13; s ^= s >>> 17; s ^= s << 5`), returned as `>>> 0`. -/
def xorshift (s : Nat) : Nat :=
  let s1 := s ^^^ shl s 13
  let s2 := s1 ^^^ shr s1 17
  s2 ^^^ shl s2 5

/-- Hex digit characters as produced by JS `Number.prototype.toString(16)`:
`0`-`9` then lowercase `a`-`f`. -/
def hexChar (n : Nat) : Char :=
  if n < 10 then Char.ofNat (48 + n) else Char.ofNat (87 + n)

/-- The `w` hex characters of `n.toString(16).padStart(w, "0")`, most
significant digit first (exact for `n < 16 ^ w`). -/
def hexCharsOf (w n : Nat) : List Char :=
  (List.range w).map fun i => hexChar (n / 16 ^ (w - 1 - i) % 16)

/-- The character stream of the `while` loop of `prng`
(src/cap/index.ts:76-79): each iteration advances the state with `xorshift`
and appends its 8-hex-character rendering.  `fuel` is the number of
iterations. -/
def prngChars (state : Nat) : Nat → List Char
  | 0 => []
  | fuel + 1 =>
    hexCharsOf 8 (xorshift state) ++ prngChars (xorshift state) fuel

/-- `prng` (src/cap/index.ts:55-82): seed the state with `fnv1a`, emit
8-character blocks until at least `length` characters exist (that is,
`⌈length / 8⌉` iterations of the loop), then truncate to `length`
(`result.substring(0, length)`). -/
def prng (seed : String) (length : Nat) : String :=
  String.mk ((prngChars (fnv1a seed) ((length + 7) / 8)).take length)

/-! ### The specification's reference description of `derive`

Spec §4.1 describes the algorithm as classic FNV-1a — "hash `seed` to a 32-bit
integer state using FNV-1a over the byte sequence, reproduced bit-for-bit
including 32-bit wraparound" — i.e. XOR in each input unit and multiply by the
FNV prime 16777619 modulo `2 ^ 32`, then run the same 3-shift xorshift32
stream, hex-render and truncate.  The definitions below follow those words;
the code's `fnv1a` instead expresses the prime multiplication as a sum of
shifted copies. -/

/-- One step of textbook FNV-1a with 32-bit wraparound: XOR then multiply by
the FNV prime. -/
def fnv1aSpecStep (h c : Nat) : Nat := (h ^^^ c) * 16777619 % 4294967296

/-- Textbook FNV-1a over the seed's input units, per spec §4.1. -/
def fnv1aSpec (s : String) : Nat := (charCodes s).foldl fnv1aSpecStep 2166136261

/-- The spec's reference `derive`: textbook FNV-1a seeding, then the xorshift32
stream rendered as 8 lowercase hex characters per output, concatenated until
`length` characters are available and truncated. -/
def prngSpec (seed : String) (length : Nat) : String :=
  String.mk ((prngChars (fnv1aSpec seed) ((length + 7) / 8)).take length)

/-- The output alphabet `[0-9a-f]`. -/
def hexDigits : List Char := "0123456789abcdef".data

/-! ### Lemmas about `prng` -/

theorem fnv1aStep_eq_spec (h c : Nat) : fnv1aStep h c = fnv1aSpecStep h c := by
  unfold fnv1aStep fnv1aSpecStep shl u32
  generalize h ^^^ c = x
  dsimp only
  norm_num
  omega

theorem fnv1a_eq_spec (s : String) : fnv1a s = fnv1aSpec s := by
  unfold fnv1a fnv1aSpec
  have hstep : fnv1aStep = fnv1aSpecStep :=
    funext fun h => funext fun c => fnv1aStep_eq_spec h c
  rw [hstep]

theorem prng_eq_spec (seed : String) (length : Nat) :
    prng seed length = prngSpec seed length := by
  unfold prng prngSpec
  rw [fnv1a_eq_spec]

theorem hexCharsOf_length (w n : Nat) : (hexCharsOf w n).length = w := by
  simp [hexCharsOf]

theorem prngChars_length (fuel : Nat) :
    ∀ state, (prngChars state fuel).length = 8 * fuel := by
  induction fuel with
  | zero => intro state; simp [prngChars]
  | succ f ih =>
    intro state
    simp [prngChars, hexCharsOf_length, ih]
    omega

theorem prng_length (seed : String) (length : Nat) :
    (prng seed length).length = length := by
  show ((prngChars (fnv1a seed) ((length + 7) / 8)).take length).length = length
  rw [List.length_take, prngChars_length]
  have h1 := Nat.div_add_mod (length + 7) 8
  have h2 : (length + 7) % 8 < 8 := Nat.mod_lt _ (by norm_num)
  omega

theorem hexChar_mem_hexDigits : ∀ m, m < 16 → hexChar m ∈ hexDigits := by decide

theorem hexCharsOf_mem (w n : Nat) : ∀ ch ∈ hexCharsOf w n, ch ∈ hexDigits := by
  intro ch hch
  rcases List.mem_map.mp hch with ⟨i, _, rfl⟩
  exact hexChar_mem_hexDigits _ (Nat.mod_lt _ (by norm_num))

theorem prngChars_mem (fuel : Nat) :
    ∀ state, ∀ ch ∈ prngChars state fuel, ch ∈ hexDigits := by
  induction fuel with
  | zero => intro state ch hch; simp [prngChars] at hch
  | succ f ih =>
    intro state ch hch
    rcases List.mem_append.mp hch with h | h
    · exact hexCharsOf_mem _ _ _ h
    · exact ih _ _ h

theorem prng_mem_hexDigits (seed : String) (length : Nat) :
    ∀ ch ∈ (prng seed length).data, ch ∈ hexDigits := by
  intro ch hch
  exact prngChars_mem _ _ _ (List.mem_of_mem_take hch)

/-- C3: for every seed string and length, `prng` (the code's `derive`) equals
the specification's reference definition — textbook FNV-1a seeding (offset
basis 2166136261, 32-bit wraparound) followed by the 3-shift xorshift32 stream
(shifts 13, 17, 5) rendered as 8-character lowercase-hex blocks, concatenated
and truncated; the result has exactly `length` characters over the alphabet
`[0-9a-f]`, and identical inputs always produce identical output. -/
theorem C3_prng_matches_reference (seed : String) (length : Nat) :
    prng seed length = prngSpec seed length
    ∧ (prng seed length).length = length
    ∧ (∀ ch ∈ (prng seed length).data, ch ∈ hexDigits)
    ∧ (∀ seed2 length2, seed2 = seed → length2 = length →
        prng seed2 length2 = prng seed length) := by
  refine ⟨prng_eq_spec seed length, prng_length seed length,
    prng_mem_hexDigits seed length, ?_⟩
  rintro seed2 length2 rfl rfl
  rfl

/-- Witness for C3 at a concrete input. -/
theorem C3_witness :
    prng "token1" 9 = prngSpec "token1" 9
    ∧ (prng "token1" 9).length = 9
    ∧ (∀ ch ∈ (prng "token1" 9).data, ch ∈ hexDigits)
    ∧ (∀ seed2 length2, seed2 = "token1" → length2 = 9 →
        prng seed2 length2 = prng "token1" 9) :=
  C3_prng_matches_reference "token1" 9

/-! ### Other string primitives used by the engine -/

/-- `randomHex` (src/cap/index.ts:85-89): hex-encode the given bytes, two
lowercase hex characters per byte (`b.toString(16).padStart(2, "0")`), joined.
The bytes come from `crypto.getRandomValues(new Uint8Array(n))` and are passed
in explicitly. -/
def randomHex (bytes : List (Fin 256)) : String :=
  String.mk (bytes.foldr (fun b acc => hexCharsOf 2 b.val ++ acc) [])

/-- JS number-to-string coercion for the integer solutions appended to the
salt in `sha256Hex(salt + solutions[idx])`: decimal representation with a
leading minus sign for negatives. -/
def jsIntToString (n : Int) : String :=
  if n < 0 then "-" ++ Nat.repr n.natAbs else Nat.repr n.natAbs

/-- JS `s.startsWith(t)`: the characters of `t` head the characters of `s`. -/
def strBegins (s t : String) : Bool := s.data.take t.data.length == t.data

/-- Splitter of `String.prototype.split` with a single-character separator,
written on the character list.  `[]` input yields `[[]]`, matching
`"".split(":") == [""]`. -/
def splitChars (sep : Char) : List Char → List (List Char)
  | [] => [[]]
  | ch :: rest =>
    if ch = sep then [] :: splitChars sep rest
    else
      match splitChars sep rest with
      | [] => [[ch]]
      | h :: t => (ch :: h) :: t

/-- JS `token.split(sep)` for a single-character separator. -/
def jsSplit (s : String) (sep : Char) : List String :=
  (splitChars sep s.data).map String.mk

/-- The split on the FIRST separator boundary: `some (before, after)` when the
string contains the separator.  This is the parse the specification describes
for verification tokens; the code instead uses `split(":")` with a strict
two-part check, and the two disagree on strings with more than one `:`. -/
def breakFirst (sep : Char) : List Char → Option (List Char × List Char)
  | [] => none
  | ch :: rest =>
    if ch = sep then some ([], rest)
    else
      match breakFirst sep rest with
      | none => none
      | some (a, b) => some (ch :: a, b)

/-- First-`:`-boundary parse of a candidate verification token, per the
specification's words. -/
def firstColonSplit (s : String) : Option (String × String) :=
  (breakFirst ':' s.data).map fun p => (String.mk p.1, String.mk p.2)

/-! ### Data model (src/cap/index.ts:1-52) -/

/-- The puzzle parameters `{c, s, d}` (count, size, difficulty). -/
structure ChallengeParams where
  c : Nat
  s : Nat
  d : Nat
deriving DecidableEq

/-- `ChallengeData`: puzzle parameters plus expiry timestamp. -/
structure ChallengeData where
  challenge : ChallengeParams
  expires : Int
deriving DecidableEq

/-- `ChallengeConfig`: every field optional, with the defaults applied inside
`createChallenge`. -/
structure ChallengeConfig where
  challengeCount : Option Nat
  challengeSize : Option Nat
  challengeDifficulty : Option Nat
  expiresMs : Option Int
  store : Option Bool
deriving DecidableEq

/-- The result shape of `redeemChallenge`
(`{success, message?, token?, expires?}`). -/
structure RedeemReply where
  success : Bool
  message : Option String
  token : Option String
  expires : Option Int
deriving DecidableEq

/-- The result shape of `createChallenge` (`{challenge, token?, expires}`). -/
structure CreateReply where
  challenge : ChallengeParams
  token : Option String
  expires : Int
deriving DecidableEq

/-- The injected storage collaborator (`StorageHooks`, src/cap/index.ts:31-48),
over an abstract persistent state `σ`.  Reads (`read`, `get`, `listExpired`)
do not mutate the state; writes return the successor state.  Every operation
may fail — `Except.error msg` models a rejected promise, which the engine does
not catch.  The hooks are modelled as present, as in the only instantiation
(`CapDO` in src/cap/DurableObject.ts, which supplies all eight). -/
structure Storage (σ : Type) where
  storeChallenge : σ → String → ChallengeData → Except String σ
  readChallenge : σ → String → Except String (Option ChallengeData)
  deleteChallenge : σ → String → Except String σ
  listExpiredChallenges : σ → Except String (List String)
  storeToken : σ → String → Int → Except String σ
  getToken : σ → String → Except String (Option Int)
  deleteToken : σ → String → Except String σ
  listExpiredTokens : σ → Except String (List String)

/-! ### A fault-free in-memory storage instance

This instance realises the storage contract of spec §6 (two key-value stores;
`read`/`get` return the stored record or absent) on association lists, with
insert-or-replace writes matching the Durable Object backend's
`INSERT OR REPLACE` semantics. -/

/-- Look up a key in an association list. -/
def alookup {α : Type} (l : List (String × α)) (k : String) : Option α :=
  (l.find? fun p => p.1 == k).map Prod.snd

/-- Remove every binding of a key. -/
def aremove {α : Type} (l : List (String × α)) (k : String) : List (String × α) :=
  l.filter fun p => p.1 != k

/-- Insert-or-replace a binding. -/
def ainsert {α : Type} (l : List (String × α)) (k : String) (v : α) :
    List (String × α) :=
  (k, v) :: aremove l k

/-- The two persistent tables (`ChallengeState`, src/cap/index.ts:9-12). -/
structure MemState where
  challengesList : List (String × ChallengeData)
  tokensList : List (String × Int)
deriving DecidableEq

/-- Delete a challenge record. -/
def remChallenge (σ0 : MemState) (t : String) : MemState :=
  { challengesList := aremove σ0.challengesList t, tokensList := σ0.tokensList }

/-- Store (insert-or-replace) a challenge record. -/
def putChallenge (σ0 : MemState) (t : String) (d : ChallengeData) : MemState :=
  { challengesList := ainsert σ0.challengesList t d, tokensList := σ0.tokensList }

/-- Delete a verification-token record. -/
def remToken (σ0 : MemState) (k : String) : MemState :=
  { challengesList := σ0.challengesList, tokensList := aremove σ0.tokensList k }

/-- Store (insert-or-replace) a verification-token record. -/
def putToken (σ0 : MemState) (k : String) (e : Int) : MemState :=
  { challengesList := σ0.challengesList, tokensList := ainsert σ0.tokensList k e }

/-- The fault-free in-memory storage collaborator.  `now` is only consulted by
the two `listExpired` scans (the backend compares `expires <= Date.now()`). -/
def memStorage (now : Int) : Storage MemState where
  storeChallenge := fun σ0 t d => .ok (putChallenge σ0 t d)
  readChallenge := fun σ0 t => .ok (alookup σ0.challengesList t)
  deleteChallenge := fun σ0 t => .ok (remChallenge σ0 t)
  listExpiredChallenges := fun σ0 =>
    .ok ((σ0.challengesList.filter fun p => decide (p.2.expires ≤ now)).map Prod.fst)
  storeToken := fun σ0 k e => .ok (putToken σ0 k e)
  getToken := fun σ0 k => .ok (alookup σ0.tokensList k)
  deleteToken := fun σ0 k => .ok (remToken σ0 k)
  listExpiredTokens := fun σ0 =>
    .ok ((σ0.tokensList.filter fun p => decide (p.2 ≤ now)).map Prod.fst)

/-- A storage collaborator whose every operation fails with message `msg`
(models a backend whose promises all reject). -/
def errStorage (msg : String) : Storage Unit where
  storeChallenge := fun _ _ _ => .error msg
  readChallenge := fun _ _ => .error msg
  deleteChallenge := fun _ _ => .error msg
  listExpiredChallenges := fun _ => .error msg
  storeToken := fun _ _ _ => .error msg
  getToken := fun _ _ => .error msg
  deleteToken := fun _ _ => .error msg
  listExpiredTokens := fun _ => .error msg

/-! ### The protocol operations (class `Cap`, src/cap/index.ts:100-287)

Each operation is a function of: the storage collaborator `st`, the digest
function `hash` (for `sha256Hex`), the clock value `now` (`Date.now()`), the
random bytes consumed (`crypto.getRandomValues`), the request's own arguments,
and the storage state `σ0`.  A rejected collaborator promise propagates as
`Except.error` — the source has no `try`/`catch`. -/

/-- `createChallenge` (src/cap/index.ts:120-145).  `tokenBytes` are the 25
random bytes of the challenge token.  Defaults: count 50, size 32,
difficulty 4, expiry offset 600000 ms; when `conf.store === false` nothing is
persisted and no token is returned. -/
def createChallenge {σ : Type} (st : Storage σ) (now : Int)
    (tokenBytes : List (Fin 256)) (conf : Option ChallengeConfig) (σ0 : σ) :
    Except String (σ × CreateReply) :=
  let challenge : ChallengeParams :=
    { c := (conf.bind ChallengeConfig.challengeCount).getD 50
      s := (conf.bind ChallengeConfig.challengeSize).getD 32
      d := (conf.bind ChallengeConfig.challengeDifficulty).getD 4 }
  let token := randomHex tokenBytes
  let expires := now + (conf.bind ChallengeConfig.expiresMs).getD 600000
  if conf.bind ChallengeConfig.store = some false then
    .ok (σ0, { challenge := challenge, token := none, expires := expires })
  else
    match st.storeChallenge σ0 token { challenge := challenge, expires := expires } with
    | .error e => .error e
    | .ok σ1 => .ok (σ1, { challenge := challenge, token := some token, expires := expires })

/-- One puzzle check of `redeemChallenge` (src/cap/index.ts:171-189), for
1-based index `i`: the salt is `prng(token + i, size)`, the target is
`prng(token + i + "d", difficulty)`, and the check is
`solutions[i-1] !== undefined && sha256hex(salt + solutions[i-1]).startsWith(target)`. -/
def puzzleOk (hash : String → String) (token : String) (size diff : Nat)
    (i : Nat) (solutions : List Int) : Bool :=
  match solutions[i - 1]? with
  | none => false
  | some sol =>
    strBegins (hash (prng (token ++ Nat.repr i) size ++ jsIntToString sol))
      (prng (token ++ Nat.repr i ++ "d") diff)

/-- The all-AND over the regenerated puzzle list
(`isValidArr.every(Boolean)`, src/cap/index.ts:182-191): indices `1..c`. -/
def solutionsAllValid (hash : String → String) (token : String)
    (p : ChallengeParams) (solutions : List Int) : Bool :=
  (List.range p.c).all fun idx => puzzleOk hash token p.s p.d (idx + 1) solutions

/-- `redeemChallenge` (src/cap/index.ts:147-206).  In the embedding
`solutions : List Int` is already an array of numbers, so of the body-shape
validation (`!token || !solutions || !Array.isArray(solutions) ||
solutions.some(s => typeof s !== "number")`) only the empty-token test
remains expressible.  `vb` and `ib` are the 15 and 8 random bytes of the
issued verification token's secret and id. -/
def redeemChallenge {σ : Type} (st : Storage σ) (hash : String → String)
    (now : Int) (vb ib : List (Fin 256)) (token : String)
    (solutions : List Int) (σ0 : σ) : Except String (σ × RedeemReply) :=
  if token = "" then .ok (σ0, ⟨false, some "Invalid body", none, none⟩)
  else
    match st.readChallenge σ0 token with
    | .error e => .error e
    | .ok challengeData =>
      match st.deleteChallenge σ0 token with
      | .error e => .error e
      | .ok σ1 =>
        match challengeData with
        | none => .ok (σ1, ⟨false, some "Challenge invalid or expired", none, none⟩)
        | some cd =>
          if cd.expires < now then
            .ok (σ1, ⟨false, some "Challenge invalid or expired", none, none⟩)
          else if solutionsAllValid hash token cd.challenge solutions then
            let vertoken := randomHex vb
            let expires := now + 1200000
            let id := randomHex ib
            let tokenKey := id ++ ":" ++ hash vertoken
            match st.storeToken σ1 tokenKey expires with
            | .error e => .error e
            | .ok σ2 => .ok (σ2, ⟨true, none, some (id ++ ":" ++ vertoken), some expires⟩)
          else .ok (σ1, ⟨false, some "Invalid solution", none, none⟩)

/-- The storage-facing tail of `validateToken` (src/cap/index.ts:238-251),
from the `_getToken` lookup on: absent (`null`) or `0` expiry (both falsy in
JS) fail; a future expiry succeeds, deleting the record unless `keepToken`;
a past expiry fails. -/
def validateLookup {σ : Type} (st : Storage σ) (now : Int) (keepToken : Bool)
    (key : String) (σ0 : σ) : Except String (σ × Bool) :=
  match st.getToken σ0 key with
  | .error e => .error e
  | .ok none => .ok (σ0, false)
  | .ok (some e) =>
    if e = 0 then .ok (σ0, false)
    else if e > now then
      if keepToken then .ok (σ0, true)
      else
        match st.deleteToken σ0 key with
        | .error err => .error err
        | .ok σ1 => .ok (σ1, true)
    else .ok (σ0, false)

/-- `validateToken` (src/cap/index.ts:221-252): empty tokens fail; the token
is split on `":"` and rejected unless that yields exactly two non-empty parts
(`parts.length !== 2 || !parts[0] || !parts[1]`); otherwise the key
`id + ":" + sha256hex(vertoken)` is looked up. -/
def validateToken {σ : Type} (st : Storage σ) (hash : String → String)
    (now : Int) (token : String) (keepToken : Bool) (σ0 : σ) :
    Except String (σ × Bool) :=
  if token = "" then .ok (σ0, false)
  else
    match jsSplit token ':' with
    | [id, vertoken] =>
      if id = "" ∨ vertoken = "" then .ok (σ0, false)
      else validateLookup st now keepToken (id ++ ":" ++ hash vertoken) σ0
    | _ => .ok (σ0, false)

/-- `cleanup` / `_cleanExpiredTokens` (src/cap/index.ts:254-286): list and
delete the expired challenges, then list and delete the expired tokens.  The
source issues the deletions of each batch with `Promise.all`; each deletion
acts on its own key, so the sequential fold is its deterministic rendering. -/
def cleanup {σ : Type} (st : Storage σ) (σ0 : σ) : Except String σ :=
  match st.listExpiredChallenges σ0 with
  | .error e => .error e
  | .ok expiredChallenges =>
    match expiredChallenges.foldlM (fun s t => st.deleteChallenge s t) σ0 with
    | .error e => .error e
    | .ok σ1 =>
      match st.listExpiredTokens σ1 with
      | .error e => .error e
      | .ok expiredTokens =>
        expiredTokens.foldlM (fun s t => st.deleteToken s t) σ1

/-- The key whose lookup `validateToken` performs, when the token passes the
code's shape checks: `some (id ++ ":" ++ hash(vertoken))` exactly when
`split(":")` yields two non-empty parts. -/
def tokenKeyOf (hash : String → String) (token : String) : Option String :=
  match jsSplit token ':' with
  | [id, vertoken] =>
    if id = "" ∨ vertoken = "" then none else some (id ++ ":" ++ hash vertoken)
  | _ => none

/-! ### Association-list lemmas -/

theorem alookup_aremove {α : Type} (l : List (String × α)) (k : String) :
    alookup (aremove l k) k = none := by
  unfold alookup aremove
  have h : (l.filter fun p => p.1 != k).find? (fun p => p.1 == k) = none := by
    rw [List.find?_eq_none]
    intro x hx
    have hne := (List.mem_filter.mp hx).2
    simp only [bne_iff_ne, ne_eq] at hne
    simp [hne]
  rw [h]
  rfl

theorem aremove_of_none {α : Type} (l : List (String × α)) (k : String)
    (h : alookup l k = none) : aremove l k = l := by
  unfold alookup at h
  have h2 : l.find? (fun p => p.1 == k) = none := by
    cases hf : l.find? (fun p => p.1 == k) with
    | none => rfl
    | some x => rw [hf] at h; simp at h
  have h3 := List.find?_eq_none.mp h2
  unfold aremove
  rw [List.filter_eq_self.mpr]
  intro a ha
  have := h3 a ha
  simp only [Bool.not_eq_true] at this
  simp [bne, this]

theorem alookup_ainsert {α : Type} (l : List (String × α)) (k : String) (v : α) :
    alookup (ainsert l k v) k = some v := by
  unfold alookup ainsert
  rw [List.find?]
  simp

/-- `remChallenge` of an absent key is the identity. -/
theorem remChallenge_of_none (σ0 : MemState) (t : String)
    (h : alookup σ0.challengesList t = none) : remChallenge σ0 t = σ0 := by
  unfold remChallenge
  rw [aremove_of_none _ _ h]

/-- `remToken` of an absent key is the identity. -/
theorem remToken_of_none (σ0 : MemState) (k : String)
    (h : alookup σ0.tokensList k = none) : remToken σ0 k = σ0 := by
  unfold remToken
  rw [aremove_of_none _ _ h]

theorem foldlM_ok {σ α : Type} (f : σ → α → σ) :
    ∀ (l : List α) (init : σ),
      List.foldlM (fun s t => (Except.ok (f s t) : Except String σ)) init l =
        .ok (l.foldl f init) := by
  intro l
  induction l with
  | nil => intro init; rfl
  | cons h t ih => intro init; exact ih (f init h)

/-! ### Evaluation lemmas on the in-memory storage -/

/-- Evaluation of `redeemChallenge` over the fault-free in-memory storage:
read, unconditional delete, then the expiry gate and the all-AND puzzle
check, with token issuance on success. -/
theorem redeem_mem_eq (hash : String → String) (now : Int)
    (vb ib : List (Fin 256)) (token : String) (solutions : List Int)
    (σ0 : MemState) (htok : token ≠ "") :
    redeemChallenge (memStorage now) hash now vb ib token solutions σ0 =
      match alookup σ0.challengesList token with
      | none =>
        .ok (remChallenge σ0 token,
          ⟨false, some "Challenge invalid or expired", none, none⟩)
      | some cd =>
        if cd.expires < now then
          .ok (remChallenge σ0 token,
            ⟨false, some "Challenge invalid or expired", none, none⟩)
        else if solutionsAllValid hash token cd.challenge solutions then
          .ok (putToken (remChallenge σ0 token)
                (randomHex ib ++ ":" ++ hash (randomHex vb)) (now + 1200000),
            ⟨true, none, some (randomHex ib ++ ":" ++ randomHex vb),
              some (now + 1200000)⟩)
        else
          .ok (remChallenge σ0 token,
            ⟨false, some "Invalid solution", none, none⟩) := by
  unfold redeemChallenge
  rw [if_neg htok]
  cases h : alookup σ0.challengesList token with
  | none =>
    simp only [memStorage, h]
  | some cd =>
    simp only [memStorage, h]

/-- `validateToken` factored through `tokenKeyOf`, for an arbitrary storage
collaborator: a token failing the code's shape checks is rejected with the
input state untouched and no storage call; otherwise the operation proceeds
to the lookup of the derived key. -/
theorem validateToken_eq_key {σ : Type} (st : Storage σ) (hash : String → String)
    (now : Int) (token : String) (keep : Bool) (σ0 : σ) :
    validateToken st hash now token keep σ0 =
      match tokenKeyOf hash token with
      | none => .ok (σ0, false)
      | some key => validateLookup st now keep key σ0 := by
  unfold validateToken tokenKeyOf
  by_cases h0 : token = ""
  · subst h0
    rfl
  · rw [if_neg h0]
    rcases hs : jsSplit token ':' with _ | ⟨a, _ | ⟨b, _ | _⟩⟩
    · rfl
    · rfl
    · dsimp only
      by_cases he : a = "" ∨ b = ""
      · rw [if_pos he, if_pos he]
      · rw [if_neg he, if_neg he]
    · rfl

/-- Evaluation of `validateLookup` over the fault-free in-memory storage. -/
theorem validateLookup_mem_eq (now : Int) (keep : Bool) (key : String)
    (σ0 : MemState) :
    validateLookup (memStorage now) now keep key σ0 =
      match alookup σ0.tokensList key with
      | none => .ok (σ0, false)
      | some e =>
        if e = 0 then .ok (σ0, false)
        else if e > now then
          if keep then .ok (σ0, true) else .ok (remToken σ0 key, true)
        else .ok (σ0, false) := by
  unfold validateLookup
  cases h : alookup σ0.tokensList key with
  | none =>
    simp only [memStorage, h]
  | some e =>
    simp only [memStorage, h]

/-- The all-AND over indices `1..c`, in quantifier form. -/
theorem solutionsAllValid_iff (hash : String → String) (token : String)
    (p : ChallengeParams) (solutions : List Int) :
    solutionsAllValid hash token p solutions = true ↔
      ∀ i, 1 ≤ i → i ≤ p.c →
        puzzleOk hash token p.s p.d i solutions = true := by
  unfold solutionsAllValid
  rw [List.all_eq_true]
  constructor
  · intro h i h1 h2
    have hm : i - 1 ∈ List.range p.c := List.mem_range.mpr (by omega)
    have := h _ hm
    have hi : i - 1 + 1 = i := by omega
    rwa [hi] at this
  · intro h idx hidx
    exact h (idx + 1) (by omega) (by
      have := List.mem_range.mp hidx
      omega)

/-- A redemption attempt on a state that no longer holds the challenge fails
with the challenge-expired-or-missing message and leaves the state as it is. -/
theorem redeem_missing (hash : String → String) (now : Int)
    (vb ib : List (Fin 256)) (token : String) (solutions : List Int)
    (σ1 : MemState) (htok : token ≠ "")
    (hnone : alookup σ1.challengesList token = none) :
    redeemChallenge (memStorage now) hash now vb ib token solutions σ1 =
      .ok (σ1, ⟨false, some "Challenge invalid or expired", none, none⟩) := by
  rw [redeem_mem_eq hash now vb ib token solutions σ1 htok, hnone,
    remChallenge_of_none σ1 token hnone]

theorem randomHex_length (bytes : List (Fin 256)) :
    (randomHex bytes).length = 2 * bytes.length := by
  show (bytes.foldr (fun b acc => hexCharsOf 2 b.val ++ acc) []).length =
    2 * bytes.length
  induction bytes with
  | nil => rfl
  | cons b t ih =>
    rw [List.foldr_cons, List.length_append, hexCharsOf_length, ih,
      List.length_cons]
    omega

/-! ### Claim C1 -/

/-- C1: for every stored, unexpired challenge and every solutions array that
passes input validation, redemption succeeds if and only if every index
`i ∈ 1..count` has an existing entry `solutions[i-1]` whose salted digest has
the target as prefix (`puzzleOk`, whose salt is `derive(token+i, size)` and
target `derive(token+i+"d", difficulty)`); any failing or missing entry fails
the whole redemption with the `Invalid solution` message. -/
theorem C1_redeem_success_iff (hash : String → String) (now : Int)
    (vb ib : List (Fin 256)) (token : String) (solutions : List Int)
    (σ0 : MemState) (cd : ChallengeData) (htok : token ≠ "")
    (hst : alookup σ0.challengesList token = some cd)
    (hexp : ¬ cd.expires < now) :
    ∃ σ1 r,
      redeemChallenge (memStorage now) hash now vb ib token solutions σ0 =
        .ok (σ1, r)
      ∧ (r.success = true ↔ ∀ i, 1 ≤ i → i ≤ cd.challenge.c →
          puzzleOk hash token cd.challenge.s cd.challenge.d i solutions = true)
      ∧ (r.success = false → r.message = some "Invalid solution") := by
  rw [redeem_mem_eq hash now vb ib token solutions σ0 htok, hst]
  dsimp only
  rw [if_neg hexp]
  by_cases hv : solutionsAllValid hash token cd.challenge solutions = true
  · rw [if_pos hv]
    refine ⟨_, _, rfl, ?_, ?_⟩
    · constructor
      · intro _
        exact (solutionsAllValid_iff hash token cd.challenge solutions).mp hv
      · intro _
        rfl
    · intro hfalse
      exact absurd hfalse (by simp)
  · rw [if_neg hv]
    refine ⟨_, _, rfl, ?_, fun _ => rfl⟩
    constructor
    · intro hfalse
      exact absurd hfalse (by simp)
    · intro hall
      exact absurd
        ((solutionsAllValid_iff hash token cd.challenge solutions).mpr hall) hv

/-- Witness for C1 at a concrete input. -/
theorem C1_witness :
    ∃ σ1 r,
      redeemChallenge (memStorage 0) (fun _ => "") 0 [] [] "t" [0]
          ⟨[("t", ⟨⟨1, 2, 1⟩, 5⟩)], []⟩ = .ok (σ1, r)
      ∧ (r.success = true ↔ ∀ i, 1 ≤ i →
          i ≤ (ChallengeData.mk ⟨1, 2, 1⟩ 5).challenge.c →
          puzzleOk (fun _ => "") "t" (ChallengeData.mk ⟨1, 2, 1⟩ 5).challenge.s
            (ChallengeData.mk ⟨1, 2, 1⟩ 5).challenge.d i [0] = true)
      ∧ (r.success = false → r.message = some "Invalid solution") :=
  C1_redeem_success_iff (fun _ => "") 0 [] [] "t" [0]
    ⟨[("t", ⟨⟨1, 2, 1⟩, 5⟩)], []⟩ ⟨⟨1, 2, 1⟩, 5⟩ (by decide) (by decide)
    (by decide)

/-! ### Claim C2 -/

/-- C2: every redemption attempt passing shape validation consumes the
challenge — the record is gone from the challenge store whatever the outcome —
and a second attempt with the same token fails with
`Challenge invalid or expired`. -/
theorem C2_redeem_consumes_challenge (hash : String → String) (now : Int)
    (vb ib : List (Fin 256)) (token : String) (solutions : List Int)
    (σ0 : MemState) (htok : token ≠ "") :
    ∃ σ1 r,
      redeemChallenge (memStorage now) hash now vb ib token solutions σ0 =
        .ok (σ1, r)
      ∧ alookup σ1.challengesList token = none
      ∧ ∀ now2 vb2 ib2 sols2,
          redeemChallenge (memStorage now2) hash now2 vb2 ib2 token sols2 σ1 =
            .ok (σ1, ⟨false, some "Challenge invalid or expired", none, none⟩) := by
  rw [redeem_mem_eq hash now vb ib token solutions σ0 htok]
  have hrem : alookup (remChallenge σ0 token).challengesList token = none :=
    alookup_aremove _ _
  cases h : alookup σ0.challengesList token with
  | none =>
    exact ⟨_, _, rfl, hrem,
      fun now2 vb2 ib2 sols2 => redeem_missing hash now2 vb2 ib2 token sols2 _ htok hrem⟩
  | some cd =>
    dsimp only
    by_cases h1 : cd.expires < now
    · rw [if_pos h1]
      exact ⟨_, _, rfl, hrem,
        fun now2 vb2 ib2 sols2 => redeem_missing hash now2 vb2 ib2 token sols2 _ htok hrem⟩
    · rw [if_neg h1]
      by_cases hv : solutionsAllValid hash token cd.challenge solutions = true
      · rw [if_pos hv]
        exact ⟨_, _, rfl, hrem,
          fun now2 vb2 ib2 sols2 => redeem_missing hash now2 vb2 ib2 token sols2 _ htok hrem⟩
      · rw [if_neg hv]
        exact ⟨_, _, rfl, hrem,
          fun now2 vb2 ib2 sols2 => redeem_missing hash now2 vb2 ib2 token sols2 _ htok hrem⟩

/-- Witness for C2 at a concrete input. -/
theorem C2_witness :
    ∃ σ1 r,
      redeemChallenge (memStorage 0) (fun _ => "") 0 [] [] "t" [0]
          ⟨[("t", ⟨⟨1, 2, 1⟩, 5⟩)], []⟩ = .ok (σ1, r)
      ∧ alookup σ1.challengesList "t" = none
      ∧ ∀ now2 vb2 ib2 sols2,
          redeemChallenge (memStorage now2) (fun _ => "") now2 vb2 ib2 "t" sols2 σ1 =
            .ok (σ1, ⟨false, some "Challenge invalid or expired", none, none⟩) :=
  C2_redeem_consumes_challenge (fun _ => "") 0 [] [] "t" [0]
    ⟨[("t", ⟨⟨1, 2, 1⟩, 5⟩)], []⟩ (by decide)

/-! ### Claim C6 -/

/-- C6 counterexample: the claim says any solutions array whose length differs
from `count` is rejected, "whether shorter or longer".  Longer arrays are not
rejected: with a stored, unexpired challenge of count 0, the one-element
solutions array `[0]` (length 1 ≠ 0) redeems successfully — the loop checks
only indices `1..count` and ignores everything beyond. -/
theorem C6_counterexample :
    ([0] : List Int).length ≠ 0
    ∧ redeemChallenge (memStorage 0) (fun _ => "") 0 [] [] "t" [0]
          ⟨[("t", ⟨⟨0, 4, 1⟩, 10⟩)], []⟩ =
        .ok (⟨[], [(":", 1200000)]⟩, ⟨true, none, some ":", some 1200000⟩) := by
  constructor
  · decide
  · rfl

/-- C6 (amended): any solutions array SHORTER than `count` is rejected (the
missing index fails the all-AND with `Invalid solution`); arrays longer than
`count` are not rejected for their length — entries past `count` are ignored. -/
theorem C6_short_solutions_rejected (hash : String → String) (now : Int)
    (vb ib : List (Fin 256)) (token : String) (solutions : List Int)
    (σ0 : MemState) (cd : ChallengeData) (htok : token ≠ "")
    (hst : alookup σ0.challengesList token = some cd)
    (hexp : ¬ cd.expires < now)
    (hlen : solutions.length < cd.challenge.c) :
    redeemChallenge (memStorage now) hash now vb ib token solutions σ0 =
      .ok (remChallenge σ0 token, ⟨false, some "Invalid solution", none, none⟩) := by
  rw [redeem_mem_eq hash now vb ib token solutions σ0 htok, hst]
  dsimp only
  rw [if_neg hexp]
  have hv : ¬ solutionsAllValid hash token cd.challenge solutions = true := by
    intro hvb
    have hall := (solutionsAllValid_iff hash token cd.challenge solutions).mp hvb
    have hc := hall cd.challenge.c (by omega) (le_refl _)
    unfold puzzleOk at hc
    have hnone : solutions[cd.challenge.c - 1]? = none :=
      List.getElem?_eq_none (by omega)
    rw [hnone] at hc
    exact absurd hc (by simp)
  rw [if_neg hv]

/-- Witness for the amended C6 at a concrete input. -/
theorem C6_witness :
    redeemChallenge (memStorage 0) (fun _ => "") 0 [] [] "t" []
        ⟨[("t", ⟨⟨2, 2, 1⟩, 5⟩)], []⟩ =
      .ok (remChallenge ⟨[("t", ⟨⟨2, 2, 1⟩, 5⟩)], []⟩ "t",
        ⟨false, some "Invalid solution", none, none⟩) :=
  C6_short_solutions_rejected (fun _ => "") 0 [] [] "t" []
    ⟨[("t", ⟨⟨2, 2, 1⟩, 5⟩)], []⟩ ⟨⟨2, 2, 1⟩, 5⟩ (by decide) (by decide)
    (by decide) (by decide)

/-! ### Claim C9 -/

/-- C9: a stored, unexpired challenge with puzzle count 0 — as produced by
`createChallenge` with `challengeCount: 0`, which is accepted without clamping
— is redeemed by the empty solutions array: the all-AND over zero checks is
vacuously true, so a verification token is issued with no proof of work. -/
theorem C9_zero_count_challenge (hash : String → String) (now : Int)
    (vb ib : List (Fin 256)) (token : String) (σ0 : MemState)
    (cd : ChallengeData) (htok : token ≠ "")
    (hst : alookup σ0.challengesList token = some cd)
    (hc : cd.challenge.c = 0) (hexp : ¬ cd.expires < now) :
    (∃ σ1 tk e,
      redeemChallenge (memStorage now) hash now vb ib token [] σ0 =
        .ok (σ1, ⟨true, none, some tk, some e⟩))
    ∧ (∀ now2 tb σ2 cfg, ChallengeConfig.challengeCount cfg = some 0 →
        ∃ σ3 rep, createChallenge (memStorage now2) now2 tb (some cfg) σ2 =
          .ok (σ3, rep) ∧ rep.challenge.c = 0) := by
  constructor
  · rw [redeem_mem_eq hash now vb ib token [] σ0 htok, hst]
    dsimp only
    rw [if_neg hexp]
    have hv : solutionsAllValid hash token cd.challenge [] = true := by
      unfold solutionsAllValid
      rw [hc]
      rfl
    rw [if_pos hv]
    exact ⟨_, _, _, rfl⟩
  · intro now2 tb σ2 cfg hcfg
    unfold createChallenge
    dsimp only
    by_cases hstore : (some cfg).bind ChallengeConfig.store = some false
    · rw [if_pos hstore]
      refine ⟨_, _, rfl, ?_⟩
      simp [hcfg]
    · rw [if_neg hstore]
      simp only [memStorage]
      refine ⟨_, _, rfl, ?_⟩
      simp [hcfg]

/-- Witness for C9 at a concrete input. -/
theorem C9_witness :
    (∃ σ1 tk e,
      redeemChallenge (memStorage 0) (fun _ => "") 0 [] [] "t" []
          ⟨[("t", ⟨⟨0, 4, 1⟩, 10⟩)], []⟩ = .ok (σ1, ⟨true, none, some tk, some e⟩))
    ∧ (∀ now2 tb σ2 cfg, ChallengeConfig.challengeCount cfg = some 0 →
        ∃ σ3 rep, createChallenge (memStorage now2) now2 tb (some cfg) σ2 =
          .ok (σ3, rep) ∧ rep.challenge.c = 0) :=
  C9_zero_count_challenge (fun _ => "") 0 [] [] "t"
    ⟨[("t", ⟨⟨0, 4, 1⟩, 10⟩)], []⟩ ⟨⟨0, 4, 1⟩, 10⟩ (by decide) (by decide)
    (by decide) (by decide)

/-! ### Claim C8 -/

/-- C8: on a successful redemption, the engine issues `secret` as the hex
encoding of 15 random bytes (30 hex characters) and `id` as the hex encoding
of 8 random bytes (16 hex characters), sets the expiry to `now + 20` minutes
(1200000 ms), persists exactly the binding
`"<id>:<hash(secret)>" ↦ expiresAt` in the token store — a key built from the
digest of the secret, not the secret — and returns `"<id>:<secret>"` together
with that expiry. -/
theorem C8_token_issuance (hash : String → String) (now : Int)
    (vb ib : List (Fin 256)) (token : String) (solutions : List Int)
    (σ0 : MemState) (cd : ChallengeData)
    (hvb : vb.length = 15) (hib : ib.length = 8)
    (htok : token ≠ "") (hst : alookup σ0.challengesList token = some cd)
    (hexp : ¬ cd.expires < now)
    (hsols : solutionsAllValid hash token cd.challenge solutions = true) :
    redeemChallenge (memStorage now) hash now vb ib token solutions σ0 =
      .ok (putToken (remChallenge σ0 token)
            (randomHex ib ++ ":" ++ hash (randomHex vb)) (now + 1200000),
        ⟨true, none, some (randomHex ib ++ ":" ++ randomHex vb),
          some (now + 1200000)⟩)
    ∧ (randomHex vb).length = 30
    ∧ (randomHex ib).length = 16
    ∧ alookup (putToken (remChallenge σ0 token)
          (randomHex ib ++ ":" ++ hash (randomHex vb)) (now + 1200000)).tokensList
        (randomHex ib ++ ":" ++ hash (randomHex vb)) = some (now + 1200000) := by
  refine ⟨?_, ?_, ?_, ?_⟩
  · rw [redeem_mem_eq hash now vb ib token solutions σ0 htok, hst]
    dsimp only
    rw [if_neg hexp, if_pos hsols]
  · rw [randomHex_length, hvb]
  · rw [randomHex_length, hib]
  · exact alookup_ainsert _ _ _

/-- Witness for C8 at a concrete input. -/
theorem C8_witness :
    redeemChallenge (memStorage 0) (fun _ => "xy") 0 (List.replicate 15 0)
        (List.replicate 8 0) "t" [] ⟨[("t", ⟨⟨0, 4, 1⟩, 10⟩)], []⟩ =
      .ok (putToken (remChallenge ⟨[("t", ⟨⟨0, 4, 1⟩, 10⟩)], []⟩ "t")
            (randomHex (List.replicate 8 0) ++ ":" ++ "xy") 1200000,
        ⟨true, none,
          some (randomHex (List.replicate 8 0) ++ ":" ++ randomHex (List.replicate 15 0)),
          some 1200000⟩)
    ∧ (randomHex (List.replicate 15 0)).length = 30
    ∧ (randomHex (List.replicate 8 0)).length = 16
    ∧ alookup (putToken (remChallenge ⟨[("t", ⟨⟨0, 4, 1⟩, 10⟩)], []⟩ "t")
          (randomHex (List.replicate 8 0) ++ ":" ++ "xy") 1200000).tokensList
        (randomHex (List.replicate 8 0) ++ ":" ++ "xy") = some 1200000 :=
  C8_token_issuance (fun _ => "xy") 0 (List.replicate 15 0) (List.replicate 8 0)
    "t" [] ⟨[("t", ⟨⟨0, 4, 1⟩, 10⟩)], []⟩ ⟨⟨0, 4, 1⟩, 10⟩ (by decide) (by decide)
    (by decide) (by decide) (by decide) (by decide)

/-! ### Claim C4 -/

/-- C4 counterexample: the claim says the token is parsed on the FIRST `:`
boundary and that storage is consulted for every token that is a string with
a `:` separator and two non-empty parts around that boundary.  `"a:b:c"`
first-splits into the non-empty pair `("a", "b:c")`, yet `validateToken`
rejects it with no storage access at all: even against a collaborator whose
every operation fails, the call returns the plain failure result — the code
checks `split(":").length !== 2` and `"a:b:c"` has three parts. -/
theorem C4_counterexample :
    firstColonSplit "a:b:c" = some ("a", "b:c")
    ∧ validateToken (errStorage "storage down") (fun s => s) 0 "a:b:c" false () =
        .ok ((), false) := by
  constructor
  · decide
  · rfl

/-- C4 (amended): `validateToken` fails fast — returning failure with the
state untouched and without any storage access, for every collaborator —
exactly when the token is empty or `split(":")` does not yield exactly two
non-empty parts (`tokenKeyOf` is `none`); for every other token the key
`id + ":" + hash(secret)` is looked up in the token store (the call proceeds
to `validateLookup` on that key). -/
theorem C4_shape_check_then_lookup {σ : Type} (st : Storage σ)
    (hash : String → String) (now : Int) (token : String) (keep : Bool)
    (σ0 : σ) :
    (tokenKeyOf hash token = none →
      validateToken st hash now token keep σ0 = .ok (σ0, false))
    ∧ (∀ key, tokenKeyOf hash token = some key →
        validateToken st hash now token keep σ0 =
          validateLookup st now keep key σ0) := by
  constructor
  · intro h
    rw [validateToken_eq_key, h]
  · intro key h
    rw [validateToken_eq_key, h]

/-- Witness for the amended C4 at concrete inputs: a malformed token is
rejected even by a failing collaborator, and a well-formed token proceeds to
the lookup. -/
theorem C4_witness :
    (tokenKeyOf (fun s => s) "abc" = none
      ∧ validateToken (errStorage "down") (fun s => s) 0 "abc" false () =
          .ok ((), false))
    ∧ (tokenKeyOf (fun s => s) "a:b" = some "a:b"
      ∧ validateToken (memStorage 0) (fun s => s) 0 "a:b" false ⟨[], []⟩ =
          validateLookup (memStorage 0) 0 false "a:b" ⟨[], []⟩) :=
  ⟨⟨by decide,
    (C4_shape_check_then_lookup (errStorage "down") (fun s => s) 0 "abc" false ()).1
      (by decide)⟩,
   ⟨by decide,
    (C4_shape_check_then_lookup (memStorage 0) (fun s => s) 0 "a:b" false ⟨[], []⟩).2
      "a:b" (by decide)⟩⟩

/-! ### Claim C7 -/

/-- C7: a verification token validates at most once by default — a successful
`validateToken` with `keepToken` unset deletes the stored record, and any
later call with the same token fails; with `keepToken` set on the first
successful call the state is untouched and the token keeps validating until
its expiry. -/
theorem C7_validate_single_use (hash : String → String) (now : Int)
    (token key : String) (e : Int) (σ0 : MemState)
    (hkey : tokenKeyOf hash token = some key)
    (hlk : alookup σ0.tokensList key = some e)
    (he0 : e ≠ 0) (hnow : e > now) :
    validateToken (memStorage now) hash now token false σ0 =
      .ok (remToken σ0 key, true)
    ∧ (∀ now2 keep2,
        validateToken (memStorage now2) hash now2 token keep2 (remToken σ0 key) =
          .ok (remToken σ0 key, false))
    ∧ validateToken (memStorage now) hash now token true σ0 = .ok (σ0, true)
    ∧ (∀ now2, e > now2 → ∀ keep2, ∃ σ2,
        validateToken (memStorage now2) hash now2 token keep2 σ0 =
          .ok (σ2, true)) := by
  refine ⟨?_, ?_, ?_, ?_⟩
  · rw [validateToken_eq_key, hkey]
    dsimp only
    rw [validateLookup_mem_eq, hlk]
    dsimp only
    rw [if_neg he0, if_pos hnow]
    simp
  · intro now2 keep2
    have hnone : alookup (remToken σ0 key).tokensList key = none :=
      alookup_aremove _ _
    rw [validateToken_eq_key, hkey]
    dsimp only
    rw [validateLookup_mem_eq, hnone]
  · rw [validateToken_eq_key, hkey]
    dsimp only
    rw [validateLookup_mem_eq, hlk]
    dsimp only
    rw [if_neg he0, if_pos hnow]
    simp
  · intro now2 hnow2 keep2
    rw [validateToken_eq_key, hkey]
    dsimp only
    rw [validateLookup_mem_eq, hlk]
    dsimp only
    rw [if_neg he0, if_pos hnow2]
    cases keep2 with
    | true => exact ⟨σ0, by simp⟩
    | false => exact ⟨remToken σ0 key, by simp⟩

/-- Witness for C7 at a concrete input. -/
theorem C7_witness :
    validateToken (memStorage 0) (fun _ => "h") 0 "a:b" false ⟨[], [("a:h", 9)]⟩ =
      .ok (remToken ⟨[], [("a:h", 9)]⟩ "a:h", true)
    ∧ (∀ now2 keep2,
        validateToken (memStorage now2) (fun _ => "h") now2 "a:b" keep2
            (remToken ⟨[], [("a:h", 9)]⟩ "a:h") =
          .ok (remToken ⟨[], [("a:h", 9)]⟩ "a:h", false))
    ∧ validateToken (memStorage 0) (fun _ => "h") 0 "a:b" true ⟨[], [("a:h", 9)]⟩ =
        .ok (⟨[], [("a:h", 9)]⟩, true)
    ∧ (∀ now2, (9 : Int) > now2 → ∀ keep2, ∃ σ2,
        validateToken (memStorage now2) (fun _ => "h") now2 "a:b" keep2
            ⟨[], [("a:h", 9)]⟩ = .ok (σ2, true)) :=
  C7_validate_single_use (fun _ => "h") 0 "a:b" "a:h" 9 ⟨[], [("a:h", 9)]⟩
    (by decide) (by decide) (by decide) (by decide)

/-! ### Claim C10 -/

/-- C10: whenever `validateToken` returns failure — malformed token, absent
key, falsy stored expiry, or expiry not in the future — the storage state is
returned exactly as it was given: nothing is deleted on any failure path (in
particular an expired record is left in place), so deletion happens only on
the success path with `keepToken` unset. -/
theorem C10_failure_leaves_state (hash : String → String) (now : Int)
    (token : String) (keep : Bool) (σ0 σ1 : MemState)
    (h : validateToken (memStorage now) hash now token keep σ0 = .ok (σ1, false)) :
    σ1 = σ0 := by
  rw [validateToken_eq_key] at h
  cases hk : tokenKeyOf hash token with
  | none =>
    rw [hk] at h
    simp only [Except.ok.injEq, Prod.mk.injEq] at h
    exact h.1.symm
  | some key =>
    rw [hk] at h
    dsimp only at h
    rw [validateLookup_mem_eq] at h
    cases he : alookup σ0.tokensList key with
    | none =>
      rw [he] at h
      simp only [Except.ok.injEq, Prod.mk.injEq] at h
      exact h.1.symm
    | some e =>
      rw [he] at h
      dsimp only at h
      by_cases h0 : e = 0
      · rw [if_pos h0] at h
        simp only [Except.ok.injEq, Prod.mk.injEq] at h
        exact h.1.symm
      · rw [if_neg h0] at h
        by_cases h1 : e > now
        · rw [if_pos h1] at h
          cases keep with
          | true => simp at h
          | false => simp at h
        · rw [if_neg h1] at h
          simp only [Except.ok.injEq, Prod.mk.injEq] at h
          exact h.1.symm

/-- Witness for C10 at a concrete input: validating against a store holding
only an EXPIRED record fails and leaves the store, expired record included,
exactly as it was. -/
theorem C10_witness :
    validateToken (memStorage 50) (fun _ => "h") 50 "a:b" false ⟨[], [("a:h", 9)]⟩ =
      .ok (⟨[], [("a:h", 9)]⟩, false)
    ∧ (⟨[], [("a:h", 9)]⟩ : MemState) = ⟨[], [("a:h", 9)]⟩ :=
  ⟨by rfl,
   C10_failure_leaves_state (fun _ => "h") 50 "a:b" false ⟨[], [("a:h", 9)]⟩
     ⟨[], [("a:h", 9)]⟩ (by rfl)⟩

/-! ### Claim C5 -/

/-- C5 counterexample: the claim says a storage failure never escapes a
protocol operation as an uncaught fault but is returned as a discriminated
non-success result (`StorageUnavailable`).  The code has no `try`/`catch`:
against a collaborator whose read rejects, `redeemChallenge` on a shape-valid
input propagates the rejection itself (`Except.error`) instead of returning
any `{success: false, message}` result. -/
theorem C5_counterexample :
    redeemChallenge (errStorage "storage down") (fun s => s) 0 [] [] "t" [] () =
      .error "storage down" := by
  rfl

/-- C5 (amended): protocol operations do not catch collaborator failures — a
storage rejection propagates out of the operation as the same exception
(`Except.error` with the collaborator's message), and the engine produces no
`StorageUnavailable` result; only in fault-free executions does every
operation return a discriminated result on which callers can pattern-match. -/
theorem C5_fault_propagation_and_results (hash : String → String) (now : Int)
    (vb ib tb : List (Fin 256)) (token : String) (solutions : List Int)
    (keep : Bool) (conf : Option ChallengeConfig) (σ0 : MemState) (msg : String)
    (htok : token ≠ "") :
    redeemChallenge (errStorage msg) hash now vb ib token solutions () =
      .error msg
    ∧ (∃ out, createChallenge (memStorage now) now tb conf σ0 = .ok out)
    ∧ (∃ out,
        redeemChallenge (memStorage now) hash now vb ib token solutions σ0 =
          .ok out)
    ∧ (∃ out, validateToken (memStorage now) hash now token keep σ0 = .ok out)
    ∧ (∃ out, cleanup (memStorage now) σ0 = .ok out) := by
  refine ⟨?_, ?_, ?_, ?_, ?_⟩
  · unfold redeemChallenge
    rw [if_neg htok]
    rfl
  · unfold createChallenge
    dsimp only
    by_cases hstore : conf.bind ChallengeConfig.store = some false
    · rw [if_pos hstore]
      exact ⟨_, rfl⟩
    · rw [if_neg hstore]
      exact ⟨_, rfl⟩
  · rw [redeem_mem_eq hash now vb ib token solutions σ0 htok]
    cases h : alookup σ0.challengesList token with
    | none => exact ⟨_, rfl⟩
    | some cd =>
      dsimp only
      by_cases h1 : cd.expires < now
      · rw [if_pos h1]
        exact ⟨_, rfl⟩
      · rw [if_neg h1]
        by_cases hv : solutionsAllValid hash token cd.challenge solutions = true
        · rw [if_pos hv]
          exact ⟨_, rfl⟩
        · rw [if_neg hv]
          exact ⟨_, rfl⟩
  · rw [validateToken_eq_key]
    cases hk : tokenKeyOf hash token with
    | none => exact ⟨_, rfl⟩
    | some key =>
      dsimp only
      rw [validateLookup_mem_eq]
      cases he : alookup σ0.tokensList key with
      | none => exact ⟨_, rfl⟩
      | some e =>
        dsimp only
        by_cases h0 : e = 0
        · rw [if_pos h0]
          exact ⟨_, rfl⟩
        · rw [if_neg h0]
          by_cases h1 : e > now
          · rw [if_pos h1]
            cases keep with
            | true =>
              refine ⟨(σ0, true), ?_⟩
              simp
            | false =>
              refine ⟨(remToken σ0 key, true), ?_⟩
              simp
          · rw [if_neg h1]
            exact ⟨_, rfl⟩
  · unfold cleanup
    simp only [memStorage]
    rw [foldlM_ok remChallenge]
    dsimp only
    rw [foldlM_ok remToken]
    exact ⟨_, rfl⟩

/-- Witness for the amended C5 at a concrete input. -/
theorem C5_witness :
    redeemChallenge (errStorage "boom") (fun _ => "") 0 [] [] "t" [] () =
      .error "boom"
    ∧ (∃ out, createChallenge (memStorage 0) 0 [] none ⟨[], []⟩ = .ok out)
    ∧ (∃ out,
        redeemChallenge (memStorage 0) (fun _ => "") 0 [] [] "t" [] ⟨[], []⟩ =
          .ok out)
    ∧ (∃ out, validateToken (memStorage 0) (fun _ => "") 0 "t" false ⟨[], []⟩ =
        .ok out)
    ∧ (∃ out, cleanup (memStorage 0) ⟨[], []⟩ = .ok out) :=
  C5_fault_propagation_and_results (fun _ => "") 0 [] [] [] "t" [] false none
    ⟨[], []⟩ "boom" (by decide)

end Cap
